import Mathlib

/-!
Verification of the hytale-tools/api username-availability service.

The development shallowly embeds the service's core (availability cache,
distributed rate limiter, session manager, and the `checkUsername`
orchestrator) as pure Lean functions over explicit state:

* Redis is modelled as a key-value map `String → Option (Bool × Option Int)`
  for the availability cache (stored verdict plus absolute expiry in epoch
  milliseconds); a `get` at time `now` sees an entry only while `now` is
  before its expiry, matching `SET ... EX` semantics.
* The cookie jar is a list of cookies with optional expiry; session validity
  and status reporting are functions of the jar and the current time.
* JavaScript strings are embedded as Lean `String`s, with `toLowerCase`
  acting per character (ASCII case folding), which is what the service's
  username keys exercise.
* Times are epoch milliseconds as `Int`; fractional hour arithmetic in the
  status endpoint uses `ℚ`.
-/

/-- ASCII lower-casing of one character, as `String.prototype.toLowerCase`
acts on the characters appearing in usernames and keys. -/
def lowerChar (c : Char) : Char :=
  if 'A' ≤ c ∧ c ≤ 'Z' then Char.ofNat (c.toNat + 32) else c

/-- Embedding of `username.toLowerCase()`. -/
def toLowerCase (s : String) : String := String.mk (s.data.map lowerChar)

/-- Cache key construction: the fixed prefix `CACHE_PREFIX` concatenated with
the lower-cased username, as in `` `${CACHE_PREFIX}${username.toLowerCase()}` ``. -/
def cacheKey (username : String) : String := "hytale:username:" ++ toLowerCase username

/-- A Redis-style store for the availability cache: each key optionally holds
the boolean verdict (the source stores the sentinel strings `"1"`/`"0"`) and
an optional absolute expiry in epoch milliseconds. -/
def CacheStore : Type := String → Option (Bool × Option Int)

/-- Embedding of `getCachedAvailability`: read the key for the lower-cased
username; a missing key or an entry whose expiry has passed is a miss. -/
def getCachedAvailability (store : CacheStore) (username : String) (now : Int) : Option Bool :=
  match store (cacheKey username) with
  | none => none
  | some (v, none) => some v
  | some (v, some e) => if now < e then some v else none

/-- Embedding of `setCachedAvailability`: an available verdict is written with
a 60-second expiry (`AVAILABLE_TTL`), a taken verdict with no expiry. -/
def setCachedAvailability (store : CacheStore) (username : String) (available : Bool)
    (now : Int) : CacheStore :=
  fun k =>
    if k = cacheKey username then
      some (available, if available then some (now + 60000) else none)
    else store k

/-- One cookie of the tough-cookie jar: name, value, optional expiry
(epoch milliseconds; `none` models an undefined `expires`). -/
structure Cookie where
  key : String
  value : String
  expires : Option Int
deriving DecidableEq

/-- The jar lookup `cookies.find(c => c.key === "ory_kratos_session")`. -/
def findSessionCookie (jar : List Cookie) : Option Cookie :=
  jar.find? (fun c => c.key == "ory_kratos_session")

/-- Embedding of `isSessionValid`: false when no session cookie (or no expiry)
exists, otherwise true exactly when `Date.now() < expiresAt - 5 * 60 * 1000`.
It is a pure function of the in-memory jar and the clock: no network state
appears among its arguments. -/
def isSessionValid (now : Int) (jar : List Cookie) : Bool :=
  match findSessionCookie jar with
  | none => false
  | some c =>
    match c.expires with
    | none => false
    | some e => decide (now < e - 5 * 60 * 1000)

/-- Embedding of `getSessionExpiry`. -/
def getSessionExpiry (jar : List Cookie) : Option Int :=
  match findSessionCookie jar with
  | none => none
  | some c => c.expires

/-- Characters matched by the character class of `/flow=([a-f0-9-]+)/`. -/
def isFlowChar (c : Char) : Bool :=
  ('a' ≤ c && c ≤ 'f') || ('0' ≤ c && c ≤ '9') || c == '-'

/-- Embedding of `location.match(/flow=([a-f0-9-]+)/)`: scan for the leftmost
position where the literal `flow=` is followed by at least one character of
the class, and return the greedy capture. -/
def extractFlowId : List Char → Option (List Char)
  | [] => none
  | c :: rest =>
    if "flow=".data.isPrefixOf (c :: rest) then
      let body := ((c :: rest).drop 5).takeWhile isFlowChar
      if body.isEmpty then extractFlowId rest else some body
    else extractFlowId rest

/-- Substring test embedding `haystack.includes(needle)`. -/
def containsSub (needle : List Char) : List Char → Bool
  | [] => needle.isPrefixOf ([] : List Char)
  | c :: rest => needle.isPrefixOf (c :: rest) || containsSub needle rest

/-- The network environment one run of `login()` observes: the `location`
header of the flow-initiation response, the backend-domain cookie jar after
that response, and the status / `location` header / body of the credential
submission response. -/
structure LoginEnv where
  initLocation : Option String
  backendCookies : List Cookie
  loginStatus : Nat
  loginLocation : Option String
  loginBody : String

/-- The ways `login()` throws: flow id missing from the redirect, CSRF cookie
missing from the backend jar, or the credential submission not answered by a
303 redirect into `/settings`. -/
inductive LoginError where
  | flowIdMissing
  | csrfMissing
  | loginRejected (status : Nat) (bodySnippet : String)
deriving DecidableEq

/-- Embedding of `login()`: extract the flow id, find the `csrf_token`-named
cookie, and require status 303 with a `location` containing `/settings`;
each missing piece raises the corresponding error, as the thrown `Error`s do. -/
def login (env : LoginEnv) : Except LoginError Unit :=
  match (match env.initLocation with
         | none => none
         | some loc => extractFlowId loc.data) with
  | none => Except.error LoginError.flowIdMissing
  | some _ =>
    match env.backendCookies.find? (fun c => "csrf_token".data.isPrefixOf c.key.data) with
    | none => Except.error LoginError.csrfMissing
    | some _ =>
      if env.loginStatus = 303 ∧
         (match env.loginLocation with
          | some loc => containsSub "/settings".data loc.data
          | none => false) = true then
        Except.ok ()
      else
        Except.error (LoginError.loginRejected env.loginStatus
          (String.mk (env.loginBody.data.take 200)))

/-- What a caller of `ensureLoggedIn` can observe. The TypeScript signature is
`Promise<void>`: there is no error outcome at all; a failed `login()` is
caught and answered by `process.kill(process.pid, "SIGTERM")`, modelled as
`terminated`. -/
inductive EnsureOutcome where
  | noLoginNeeded
  | loginCompleted
  | terminated
deriving DecidableEq

/-- Embedding of `ensureLoggedIn()`: no-op when the session is valid; else run
the login protocol, translating any of its failures into process
termination rather than an error return. -/
def ensureLoggedIn (now : Int) (jar : List Cookie) (env : LoginEnv) : EnsureOutcome :=
  if isSessionValid now jar then EnsureOutcome.noLoginNeeded
  else
    match login env with
    | Except.ok _ => EnsureOutcome.loginCompleted
    | Except.error _ => EnsureOutcome.terminated

/-- Fractional hours remaining, `(expiresAt.getTime() - Date.now()) / 1000 / 60 / 60`. -/
def rawHoursLeft (now expiresAt : Int) : ℚ := ((expiresAt - now : Int) : ℚ) / 3600000

/-- Two-decimal rounding, `Number(x.toFixed(2))`. -/
def round2 (q : ℚ) : ℚ := ((round (q * 100) : ℤ) : ℚ) / 100

/-- The JSON shape answered by `GET /status`. -/
structure StatusReport where
  loggedIn : Bool
  expiresAt : Option Int
  hoursLeft : Option ℚ
deriving DecidableEq

/-- Embedding of the `GET /status` handler. The guard on `hoursLeft` is the
source's truthiness test `hoursLeft ? Number(hoursLeft.toFixed(2)) : null`,
which sends the raw value `0` to `null` exactly like the absent case. -/
def getStatus (now : Int) (jar : List Cookie) : StatusReport :=
  { loggedIn := isSessionValid now jar
    expiresAt := getSessionExpiry jar
    hoursLeft :=
      match getSessionExpiry jar with
      | none => none
      | some t =>
        if rawHoursLeft now t = 0 then none else some (round2 (rawHoursLeft now t)) }

/-- Modelled from the spec: the sliding-window algorithm itself lives in the
external `@upstash/ratelimit` dependency (`Ratelimit.slidingWindow(30, "60 s")`
over the Redis adapter) and is not part of this repository's sources; §4.3
specifies `limit(key, identity)` as combining the fixed operation name and the
caller identity into one rate-limit key and allowing 30 permits per rolling
60-second window. The limiter state records, per key, the epoch-millisecond
timestamps of the permits granted so far. -/
structure RLState where
  grants : String → List Int

/-- The limiter state before any request. -/
def rlEmpty : RLState := { grants := fun _ => [] }

/-- Modelled from the spec: the rate-limit key combining the fixed operation
name and the caller identity. -/
def rlKey (op identity : String) : String := op ++ ":" ++ identity

/-- Membership of a grant timestamp `t` in the rolling 60-second window ending
at `T`. -/
def inWindow (T t : Int) : Bool := decide (T - 60000 < t) && decide (t ≤ T)

/-- Number of recorded grants inside the rolling window ending at `T`. -/
def countWindow (l : List Int) (T : Int) : Nat := (l.filter (inWindow T)).length

/-- Smallest element of a list of timestamps. -/
def listMin : List Int → Option Int
  | [] => none
  | t :: ts => some (ts.foldl min t)

/-- The answer of `ratelimit.limit`: whether the permit was granted, the epoch
millisecond at which the window resets, and the successor limiter state. -/
structure RLOutcome where
  success : Bool
  reset : Int
  state : RLState

/-- Modelled from the spec: `limit(key, identity)` grants a permit exactly when
fewer than 30 permits were granted in the rolling 60-second window ending now,
recording the grant; a denial leaves the stored counters unchanged and reports
the epoch millisecond at which the window resets (when the oldest in-window
grant leaves the window). -/
def rlLimit (op identity : String) (now : Int) (st : RLState) : RLOutcome :=
  if ((st.grants (rlKey op identity)).filter (inWindow now)).length < 30 then
    { success := true
      reset := now + 60000
      state := { grants := fun k =>
        if k = rlKey op identity then now :: st.grants (rlKey op identity)
        else st.grants k } }
  else
    { success := false
      reset :=
        (match listMin ((st.grants (rlKey op identity)).filter (inWindow now)) with
         | some m => m + 60000
         | none => now + 60000)
      state := st }

/-- The caller identity used by the `GET /check/:username` handler:
`server?.requestIP(request)?.address ?? "unknown"`. -/
def callerIdentity : Option String → String
  | some ip => ip
  | none => "unknown"

/-- Ceiling of `a / b` on integers for positive `b`, the value of
`Math.ceil((reset - Date.now()) / 1000)` on exact arithmetic. -/
def ceilDiv (a b : Int) : Int := -((-a).fdiv b)

/-- The `CheckResult` union: `{ok: true, available, cached}`,
`{ok: false, error: "hytale_api_error", status}` or
`{ok: false, error: "rate_limited", retryAfter}`. -/
inductive CheckResult where
  | ok (available : Bool) (cached : Bool)
  | apiError (status : Nat)
  | rateLimited (retryAfter : Int)
deriving DecidableEq

/-- The state `checkUsername` reads and writes: the availability cache, the
limiter counters, the session jar (never touched by `checkUsername`), and the
number of origin availability requests issued so far. -/
structure World where
  cache : CacheStore
  rl : RLState
  session : List Cookie
  originCalls : Nat

/-- Embedding of `checkUsername(username, ip)`. The origin availability
endpoint is the function `origin` from the queried username to the HTTP status
it answers. Order as in the source: cache read first (returning immediately on
a hit), then `ratelimit.limit("check_username", { ip })`, then the origin
request, whose status 200/400 is cached and mapped to a verdict while any
other status is reported without a cache write. -/
def checkUsername (w : World) (origin : String → Nat) (now : Int)
    (username ip : String) : CheckResult × World :=
  match getCachedAvailability w.cache username now with
  | some v => (CheckResult.ok v true, w)
  | none =>
    if (rlLimit "check_username" ip now w.rl).success then
      if origin username ≠ 200 ∧ origin username ≠ 400 then
        (CheckResult.apiError (origin username),
         { w with rl := (rlLimit "check_username" ip now w.rl).state
                  originCalls := w.originCalls + 1 })
      else
        (CheckResult.ok (origin username == 200) false,
         { w with rl := (rlLimit "check_username" ip now w.rl).state
                  originCalls := w.originCalls + 1
                  cache := setCachedAvailability w.cache username (origin username == 200) now })
    else
      (CheckResult.rateLimited
         (ceilDiv ((rlLimit "check_username" ip now w.rl).reset - now) 1000),
       { w with rl := (rlLimit "check_username" ip now w.rl).state })

/-- Program counter of one request handler running `ensureLoggedIn`:
not yet scheduled, suspended inside an in-flight `login()` (the synchronous
prefix — the `isSessionValid()` test and entry into `login` — has run and the
task is parked at `login`'s first awaited fetch), or completed. -/
inductive TaskPC where
  | notStarted
  | inLogin
  | finished
deriving DecidableEq

/-- Two concurrent callers of `ensureLoggedIn` plus the shared session
validity they consult. `valid` becomes true only when a login completes. -/
structure TwoTasks where
  pc1 : TaskPC
  pc2 : TaskPC
  valid : Bool
deriving DecidableEq

/-- Event-loop interleaving of two `ensureLoggedIn` calls, exactly as the
source runs them: each task's first step atomically evaluates
`isSessionValid()` and, when invalid, enters `login()` and suspends at its
first network await; a separate step completes an in-flight login, setting the
shared session valid. No step consults any other task's progress — the source
has no single-flight guard or mutex around `ensureLoggedIn`. -/
inductive LoginStep : TwoTasks → TwoTasks → Prop where
  | enter1 (s : TwoTasks) : s.pc1 = TaskPC.notStarted → s.valid = false →
      LoginStep s { s with pc1 := TaskPC.inLogin }
  | skip1 (s : TwoTasks) : s.pc1 = TaskPC.notStarted → s.valid = true →
      LoginStep s { s with pc1 := TaskPC.finished }
  | finish1 (s : TwoTasks) : s.pc1 = TaskPC.inLogin →
      LoginStep s { s with pc1 := TaskPC.finished, valid := true }
  | enter2 (s : TwoTasks) : s.pc2 = TaskPC.notStarted → s.valid = false →
      LoginStep s { s with pc2 := TaskPC.inLogin }
  | skip2 (s : TwoTasks) : s.pc2 = TaskPC.notStarted → s.valid = true →
      LoginStep s { s with pc2 := TaskPC.finished }
  | finish2 (s : TwoTasks) : s.pc2 = TaskPC.inLogin →
      LoginStep s { s with pc2 := TaskPC.finished, valid := true }

/-- Both handlers dispatched while the session is invalid and neither login
has completed. -/
def twoIdleInvalid : TwoTasks :=
  { pc1 := TaskPC.notStarted, pc2 := TaskPC.notStarted, valid := false }

/-- All grant timestamps recorded in the limiter state are at most `T`. -/
def timesLe (st : RLState) (T : Int) : Prop :=
  ∀ k t, t ∈ st.grants k → t ≤ T

/-- Every key's recorded grants number at most 30 inside every rolling
60-second window. -/
def slidingOK (st : RLState) : Prop :=
  ∀ k T, countWindow (st.grants k) T ≤ 30

/-- Run a sequence of `(time, identity)` limit requests for the fixed
operation name `"check_username"` through the limiter. -/
def runTrace (st : RLState) : List (Int × String) → RLState
  | [] => st
  | r :: rest => runTrace (rlLimit "check_username" r.2 r.1 st).state rest

/-- A world with one permanently cached hit for `"Foo"` and fresh limiter,
session and call-count state. -/
def hitWorld : World :=
  { cache := fun k => if k = cacheKey "Foo" then some (true, none) else none
    rl := rlEmpty
    session := []
    originCalls := 0 }

/-- A world with empty cache, fresh limiter state, empty jar and no origin
calls issued yet. -/
def emptyWorld : World :=
  { cache := fun _ => none
    rl := rlEmpty
    session := []
    originCalls := 0 }

/-- A world whose limiter already granted 30 permits at time 0 to the key of
identity `"203.0.113.9"`, so the window ending at 0 is full. -/
def denyWorld : World :=
  { cache := fun _ => none
    rl := { grants := fun k =>
      if k = rlKey "check_username" "203.0.113.9" then List.replicate 30 0 else [] }
    session := []
    originCalls := 0 }

/-- A jar holding a session cookie that expired one second before the clock
value 3600000 used alongside it. -/
def pastJar : List Cookie :=
  [{ key := "ory_kratos_session", value := "s", expires := some 3599000 }]

/-- An environment in which the flow-initiation response carries no usable
`location` header, so `login()` fails at its first step. -/
def noFlowEnv : LoginEnv :=
  { initLocation := none
    backendCookies := []
    loginStatus := 0
    loginLocation := none
    loginBody := "" }

/-- Filtering with a pointwise-weaker predicate keeps at least as many
elements. -/
theorem length_filter_le_of_imp {α : Type} (p q : α → Bool) :
    ∀ l : List α, (∀ a, a ∈ l → p a = true → q a = true) →
      (l.filter p).length ≤ (l.filter q).length := by
  intro l
  induction l with
  | nil => intro _; simp
  | cons a l ih =>
    intro h
    have ht : (l.filter p).length ≤ (l.filter q).length :=
      ih (fun b hb => h b (List.mem_cons_of_mem a hb))
    rw [List.filter_cons, List.filter_cons]
    cases hp : p a with
    | true =>
      rw [h a (List.mem_cons_self a l) hp]
      simp only [if_true, List.length_cons]
      omega
    | false =>
      simp only [Bool.false_eq_true, if_false]
      cases hq : q a with
      | true => simp only [if_true, List.length_cons]; omega
      | false => simp only [Bool.false_eq_true, if_false]; omega

/-- A timestamp inside the window ending at `T` that is not after `now` also
lies inside the window ending at `now`, provided `now` itself is in the
window ending at `T`. -/
theorem inWindow_of_le {T now t : Int} (hw : inWindow T now = true) (ht : t ≤ now)
    (hT : inWindow T t = true) : inWindow now t = true := by
  simp only [inWindow, Bool.and_eq_true, decide_eq_true_eq] at hw hT ⊢
  omega

/-- One `rlLimit` step at the current time keeps all recorded timestamps at
most the current time and preserves the 30-per-window bound. -/
theorem rlLimit_preserves (op idy : String) (now : Int) (st : RLState)
    (hle : timesLe st now) (hok : slidingOK st) :
    timesLe (rlLimit op idy now st).state now ∧ slidingOK (rlLimit op idy now st).state := by
  unfold rlLimit
  by_cases hlt : ((st.grants (rlKey op idy)).filter (inWindow now)).length < 30
  · rw [if_pos hlt]
    constructor
    · intro k t htm
      dsimp only at htm
      by_cases hk : k = rlKey op idy
      · rw [if_pos hk] at htm
        rcases List.mem_cons.mp htm with h | h
        · exact le_of_eq h
        · exact hle _ t h
      · rw [if_neg hk] at htm
        exact hle k t htm
    · intro k T
      dsimp only
      by_cases hk : k = rlKey op idy
      · rw [if_pos hk]
        unfold countWindow
        rw [List.filter_cons]
        cases hw : inWindow T now with
        | false =>
          simp only [Bool.false_eq_true, if_false]
          exact hok (rlKey op idy) T
        | true =>
          simp only [if_true, List.length_cons]
          have hsub : ((st.grants (rlKey op idy)).filter (inWindow T)).length
              ≤ ((st.grants (rlKey op idy)).filter (inWindow now)).length :=
            length_filter_le_of_imp _ _ _
              (fun t htm hT => inWindow_of_le hw (hle _ t htm) hT)
          omega
      · rw [if_neg hk]
        exact hok k T
  · rw [if_neg hlt]
    exact ⟨hle, hok⟩

/-- Running a time-ordered request trace preserves the 30-per-window bound. -/
theorem runTrace_slidingOK (reqs : List (Int × String)) :
    ∀ (st : RLState) (t0 : Int), timesLe st t0 → slidingOK st →
      List.Chain (fun a b : Int => a ≤ b) t0 (reqs.map Prod.fst) →
      slidingOK (runTrace st reqs) := by
  induction reqs with
  | nil => intro st t0 _ h2 _; exact h2
  | cons r rest ih =>
    intro st t0 h1 h2 hchain
    rw [List.map_cons] at hchain
    cases hchain with
    | cons hle hchain =>
      have h1' : timesLe st r.1 := fun k t htm => le_trans (h1 k t htm) hle
      have hstep := rlLimit_preserves "check_username" r.2 r.1 st h1' h2
      exact ih (rlLimit "check_username" r.2 r.1 st).state r.1 hstep.1 hstep.2 hchain

/-- Distinct identities produce distinct rate-limit keys. -/
theorem rlKey_ne (op : String) (i j : String) (h : i ≠ j) : rlKey op i ≠ rlKey op j := by
  intro heq
  apply h
  have hd := congrArg String.data heq
  simp only [rlKey, String.data_append, List.append_assoc] at hd
  have h1 := List.append_cancel_left hd
  have h2 := List.append_cancel_left h1
  exact congrArg String.mk h2

/-- A limit call only ever touches the counters stored under its own key. -/
theorem rlLimit_grants_other (op i : String) (now : Int) (st : RLState) (k : String)
    (hk : k ≠ rlKey op i) :
    (rlLimit op i now st).state.grants k = st.grants k := by
  unfold rlLimit
  by_cases h : ((st.grants (rlKey op i)).filter (inWindow now)).length < 30
  · rw [if_pos h]
    dsimp only
    rw [if_neg hk]
  · rw [if_neg h]

/-- A cache miss stays a miss at any later read time: entries are only hidden
by expiry, which is monotone in the clock. -/
theorem getCachedAvailability_none_mono (store : CacheStore) (username : String)
    (now now2 : Int) (h : getCachedAvailability store username now = none)
    (hle : now ≤ now2) :
    getCachedAvailability store username now2 = none := by
  unfold getCachedAvailability at h ⊢
  cases hc : store (cacheKey username) with
  | none => rfl
  | some p =>
    obtain ⟨v, e⟩ := p
    cases e with
    | none => rw [hc] at h; simp at h
    | some t =>
      rw [hc] at h
      dsimp only at h ⊢
      by_cases hlt : now < t
      · rw [if_pos hlt] at h; simp at h
      · have h2 : ¬ now2 < t := by omega
        rw [if_neg h2]

/-- C1: for every username and caller identity, when the cache holds an entry
for the username, `checkUsername` answers `Success{available, fromCache=true}`
immediately and returns the world unchanged: the limiter's stored counters,
the session jar and the origin-call count are exactly as before, so no
rate-limit consumption and no session or origin interaction occurs. -/
theorem cacheHit_returns_immediately (w : World) (origin : String → Nat) (now : Int)
    (username ip : String) (v : Bool)
    (h : getCachedAvailability w.cache username now = some v) :
    checkUsername w origin now username ip = (CheckResult.ok v true, w) := by
  unfold checkUsername
  rw [h]

/-- C1 witness: a concrete cache hit for `"Foo"` against an origin that would
answer 500, returning the cached verdict and the untouched world. -/
theorem cacheHit_returns_immediately_witness :
    checkUsername hitWorld (fun _ => 500) 5 "Foo" "203.0.113.1"
      = (CheckResult.ok true true, hitWorld) :=
  cacheHit_returns_immediately hitWorld (fun _ => 500) 5 "Foo" "203.0.113.1" true (by decide)

/-- C2: on a cache miss that the rate limiter allows, the origin status is
mapped exactly as: 200 to `Success{available=true}`, 400 to
`Success{available=false}`, and any other status to
`Failure{OriginError, statusCode}` carrying that status. -/
theorem origin_status_mapping (w : World) (origin : String → Nat) (now : Int)
    (username ip : String)
    (hmiss : getCachedAvailability w.cache username now = none)
    (hallow : (rlLimit "check_username" ip now w.rl).success = true) :
    (origin username = 200 →
      (checkUsername w origin now username ip).1 = CheckResult.ok true false)
    ∧ (origin username = 400 →
      (checkUsername w origin now username ip).1 = CheckResult.ok false false)
    ∧ (origin username ≠ 200 → origin username ≠ 400 →
      (checkUsername w origin now username ip).1 = CheckResult.apiError (origin username)) := by
  unfold checkUsername
  rw [hmiss]
  dsimp only
  rw [hallow]
  simp only [if_true]
  refine ⟨?_, ?_, ?_⟩
  · intro h200
    rw [if_neg (by simp [h200])]
    simp [h200]
  · intro h400
    rw [if_neg (by simp [h400])]
    simp [h400]
  · intro h2 h4
    rw [if_pos ⟨h2, h4⟩]

/-- C2 witness: with an empty cache and a fresh limiter, three concrete
usernames answered 200, 400 and 500 by the origin map to the three result
variants. -/
theorem origin_status_mapping_witness :
    (checkUsername emptyWorld
        (fun u => if u = "alpha" then 200 else if u = "beta" then 400 else 500)
        0 "alpha" "203.0.113.2").1 = CheckResult.ok true false
    ∧ (checkUsername emptyWorld
        (fun u => if u = "alpha" then 200 else if u = "beta" then 400 else 500)
        0 "beta" "203.0.113.2").1 = CheckResult.ok false false
    ∧ (checkUsername emptyWorld
        (fun u => if u = "alpha" then 200 else if u = "beta" then 400 else 500)
        0 "gamma" "203.0.113.2").1 = CheckResult.apiError 500 := by
  refine ⟨?_, ?_, ?_⟩
  · exact (origin_status_mapping emptyWorld _ 0 "alpha" "203.0.113.2"
      (by decide) (by decide)).1 (by decide)
  · exact (origin_status_mapping emptyWorld _ 0 "beta" "203.0.113.2"
      (by decide) (by decide)).2.1 (by decide)
  · have h := (origin_status_mapping emptyWorld
      (fun u => if u = "alpha" then 200 else if u = "beta" then 400 else 500)
      0 "gamma" "203.0.113.2" (by decide) (by decide)).2.2 (by decide) (by decide)
    simpa using h

/-- C5: on a cache miss that the rate limiter denies, `checkUsername` answers
`Failure{RateLimited, retryAfterSeconds}` with
`retryAfterSeconds = ceil((resetAtEpochMs - now) / 1000)` computed from the
reset time the limiter returned, and the origin-call count is unchanged: the
origin API is not contacted. -/
theorem ratelimit_denial_short_circuit (w : World) (origin : String → Nat) (now : Int)
    (username ip : String)
    (hmiss : getCachedAvailability w.cache username now = none)
    (hdeny : (rlLimit "check_username" ip now w.rl).success = false) :
    checkUsername w origin now username ip
      = (CheckResult.rateLimited
           (ceilDiv ((rlLimit "check_username" ip now w.rl).reset - now) 1000),
         { w with rl := (rlLimit "check_username" ip now w.rl).state })
    ∧ ((checkUsername w origin now username ip).2).originCalls = w.originCalls := by
  have hred : checkUsername w origin now username ip
      = (CheckResult.rateLimited
           (ceilDiv ((rlLimit "check_username" ip now w.rl).reset - now) 1000),
         { w with rl := (rlLimit "check_username" ip now w.rl).state }) := by
    unfold checkUsername
    rw [hmiss]
    dsimp only
    rw [hdeny]
    simp only [Bool.false_eq_true, if_false]
  exact ⟨hred, by rw [hred]⟩

set_option maxRecDepth 4000 in
/-- C5 witness: a window already holding 30 permits at time 0 denies the next
request; the limiter reports reset at 60000, so the caller is told to retry
after 60 seconds, and no origin call is counted. -/
theorem ratelimit_denial_short_circuit_witness :
    (checkUsername denyWorld (fun _ => 200) 0 "newname" "203.0.113.9").1
      = CheckResult.rateLimited 60
    ∧ ((checkUsername denyWorld (fun _ => 200) 0 "newname" "203.0.113.9").2).originCalls = 0 := by
  have h := ratelimit_denial_short_circuit denyWorld (fun _ => 200) 0 "newname" "203.0.113.9"
    (by decide) (by decide)
  refine ⟨?_, h.2⟩
  rw [h.1]
  decide

/-- C6: whenever the login protocol fails — for any of its error outcomes:
missing flow id, missing CSRF cookie, or a credential submission not answered
by a 303 redirect into `/settings` (covering rejected credentials and a wrong
final redirect) — `ensureLoggedIn` ends in process termination. Its outcome
type, like the source's `Promise<void>`, has no error alternative at all, so
no caller can observe it completing with an error. -/
theorem login_failure_terminates (now : Int) (jar : List Cookie) (env : LoginEnv)
    (e : LoginError) (hinvalid : isSessionValid now jar = false)
    (hfail : login env = Except.error e) :
    ensureLoggedIn now jar env = EnsureOutcome.terminated := by
  unfold ensureLoggedIn
  rw [hinvalid, hfail]
  rfl

/-- C6 witness: with an empty jar and a flow-initiation response carrying no
location header, the login fails with a missing flow id and `ensureLoggedIn`
terminates the process. -/
theorem login_failure_terminates_witness :
    ensureLoggedIn 0 [] noFlowEnv = EnsureOutcome.terminated :=
  login_failure_terminates 0 [] noFlowEnv LoginError.flowIdMissing rfl rfl

/-- C7: `isSessionValid` is a pure function of the in-memory jar and the
clock; it is false when no session cookie (or no expiry on it) exists, false
whenever the current time is within 5 minutes of the cookie's expiry, false in
particular for an expiry 3 minutes away, and true for an expiry 10 minutes
away. -/
theorem session_validity_margin (now : Int) (jar : List Cookie) :
    (findSessionCookie jar = none → isSessionValid now jar = false)
    ∧ (∀ c, findSessionCookie jar = some c → c.expires = none →
        isSessionValid now jar = false)
    ∧ (∀ c e, findSessionCookie jar = some c → c.expires = some e →
        e - now ≤ 5 * 60 * 1000 → isSessionValid now jar = false)
    ∧ (∀ c, findSessionCookie jar = some c → c.expires = some (now + 3 * 60 * 1000) →
        isSessionValid now jar = false)
    ∧ (∀ c, findSessionCookie jar = some c → c.expires = some (now + 10 * 60 * 1000) →
        isSessionValid now jar = true) := by
  refine ⟨?_, ?_, ?_, ?_, ?_⟩
  · intro h
    unfold isSessionValid
    rw [h]
  · intro c h he
    unfold isSessionValid
    rw [h]
    dsimp only
    rw [he]
  · intro c e h he hle
    unfold isSessionValid
    rw [h]
    dsimp only
    rw [he]
    simp only [decide_eq_false_iff_not]
    omega
  · intro c h he
    unfold isSessionValid
    rw [h]
    dsimp only
    rw [he]
    simp only [decide_eq_false_iff_not]
    omega
  · intro c h he
    unfold isSessionValid
    rw [h]
    dsimp only
    rw [he]
    simp only [decide_eq_true_eq]
    omega

/-- C7 witness: at clock 0, a session cookie expiring at 600000 (10 minutes
ahead) is valid while one expiring at 180000 (3 minutes ahead) is not. -/
theorem session_validity_margin_witness :
    isSessionValid 0 [{ key := "ory_kratos_session", value := "v", expires := some 600000 }]
      = true
    ∧ isSessionValid 0 [{ key := "ory_kratos_session", value := "v", expires := some 180000 }]
      = false := by
  constructor
  · exact (session_validity_margin 0 _).2.2.2.2
      { key := "ory_kratos_session", value := "v", expires := some 600000 } (by decide) (by decide)
  · exact (session_validity_margin 0 _).2.2.2.1
      { key := "ory_kratos_session", value := "v", expires := some 180000 } (by decide) (by decide)

/-- C8: when the allowed origin call answers a status other than 200 and 400,
`checkUsername` reports `Failure{OriginError, statusCode}` and the cache is
left pointwise unchanged, so an identical later request that the limiter
allows reaches the origin again (its origin-call count increments). -/
theorem origin_error_no_cache_write (w : World) (origin : String → Nat) (now : Int)
    (username ip : String)
    (hmiss : getCachedAvailability w.cache username now = none)
    (hallow : (rlLimit "check_username" ip now w.rl).success = true)
    (hbad2 : origin username ≠ 200) (hbad4 : origin username ≠ 400) :
    (checkUsername w origin now username ip).1 = CheckResult.apiError (origin username)
    ∧ ((checkUsername w origin now username ip).2).cache = w.cache
    ∧ (∀ now2 : Int, now ≤ now2 →
        (rlLimit "check_username" ip now2
           ((checkUsername w origin now username ip).2).rl).success = true →
        ((checkUsername ((checkUsername w origin now username ip).2) origin now2
            username ip).2).originCalls
          = ((checkUsername w origin now username ip).2).originCalls + 1) := by
  have hred : checkUsername w origin now username ip
      = (CheckResult.apiError (origin username),
         { w with rl := (rlLimit "check_username" ip now w.rl).state
                  originCalls := w.originCalls + 1 }) := by
    unfold checkUsername
    rw [hmiss]
    dsimp only
    rw [hallow]
    simp only [if_true]
    rw [if_pos ⟨hbad2, hbad4⟩]
  refine ⟨by rw [hred], by rw [hred], ?_⟩
  intro now2 hle2 hallow2
  have hmiss2 : getCachedAvailability w.cache username now2 = none :=
    getCachedAvailability_none_mono w.cache username now now2 hmiss hle2
  rw [hred] at hallow2 ⊢
  dsimp only at hallow2 ⊢
  unfold checkUsername
  dsimp only
  rw [hmiss2]
  dsimp only
  rw [hallow2]
  simp only [if_true]
  rw [if_pos ⟨hbad2, hbad4⟩]

/-- C8 witness: an origin answering 500 yields the forwarded failure, and an
immediately repeated identical request performs a second origin call. -/
theorem origin_error_no_cache_write_witness :
    (checkUsername emptyWorld (fun _ => 500) 0 "somename" "203.0.113.3").1
      = CheckResult.apiError 500
    ∧ ((checkUsername (checkUsername emptyWorld (fun _ => 500) 0 "somename" "203.0.113.3").2
          (fun _ => 500) 0 "somename" "203.0.113.3").2).originCalls
        = ((checkUsername emptyWorld (fun _ => 500) 0 "somename" "203.0.113.3").2).originCalls
            + 1 := by
  have h := origin_error_no_cache_write emptyWorld (fun _ => 500) 0 "somename" "203.0.113.3"
    (by decide) (by decide) (by decide) (by decide)
  exact ⟨h.1, h.2.2 0 le_rfl (by decide)⟩

/-- C3: for usernames with the same lower-cased form, writing an available
verdict makes any read within the 60-second TTL answer `Some(true)` and any
read at or after the TTL's end answer `None`, while writing a taken verdict
makes every later read answer `Some(false)`: the negative entry never
expires. -/
theorem cache_ttl_case_insensitive (store : CacheStore) (u u' : String) (now : Int)
    (h : toLowerCase u = toLowerCase u') :
    (∀ t : Int, now ≤ t → t < now + 60000 →
       getCachedAvailability (setCachedAvailability store u true now) u' t = some true)
    ∧ (∀ t : Int, now + 60000 ≤ t →
       getCachedAvailability (setCachedAvailability store u true now) u' t = none)
    ∧ (∀ t : Int, now ≤ t →
       getCachedAvailability (setCachedAvailability store u false now) u' t = some false) := by
  have hk : cacheKey u' = cacheKey u := by
    unfold cacheKey
    rw [h]
  refine ⟨?_, ?_, ?_⟩
  · intro t h1 h2
    unfold getCachedAvailability setCachedAvailability
    rw [hk, if_pos rfl]
    simp [h2]
  · intro t h2
    unfold getCachedAvailability setCachedAvailability
    rw [hk, if_pos rfl]
    simp [show ¬ t < now + 60000 by omega]
  · intro t h1
    unfold getCachedAvailability setCachedAvailability
    rw [hk, if_pos rfl]
    simp

/-- C3 witness: `set("Foo", true)` read through `get("foo")` at 30 seconds is
`Some(true)` and at 60 seconds is `None`; `set("Foo", false)` read through
`get("foo")` far in the future is still `Some(false)`. -/
theorem cache_ttl_case_insensitive_witness :
    getCachedAvailability (setCachedAvailability (fun _ => none) "Foo" true 0) "foo" 30000
      = some true
    ∧ getCachedAvailability (setCachedAvailability (fun _ => none) "Foo" true 0) "foo" 60000
      = none
    ∧ getCachedAvailability (setCachedAvailability (fun _ => none) "Foo" false 0) "foo" 999999999
      = some false := by
  have h := cache_ttl_case_insensitive (fun _ => none) "Foo" "foo" 0 (by decide)
  exact ⟨h.1 30000 (by decide) (by decide), h.2.1 60000 (by decide),
    h.2.2 999999999 (by decide)⟩

/-- C4: the limiter keys its counters on the fixed operation name
`"check_username"` combined with the caller identity (the handler supplies the
request IP or `"unknown"`), one identity's limit call never touches another
identity's stored counters, and along any time-ordered request trace the
number of permits granted to one identity inside any rolling 60-second window
never exceeds 30. -/
theorem ratelimit_per_identity_bound (reqs : List (Int × String))
    (hmono : List.Chain' (fun a b : Int => a ≤ b) (reqs.map Prod.fst))
    (idy : String) (T : Int) :
    countWindow ((runTrace rlEmpty reqs).grants (rlKey "check_username" idy)) T ≤ 30
    ∧ (∀ i j : String, ∀ st : RLState, ∀ now : Int, i ≠ j →
        (rlLimit "check_username" i now st).state.grants (rlKey "check_username" j)
          = st.grants (rlKey "check_username" j))
    ∧ rlKey "check_username" idy = "check_username" ++ ":" ++ idy
    ∧ callerIdentity none = "unknown"
    ∧ (∀ s : String, callerIdentity (some s) = s) := by
  refine ⟨?_, ?_, rfl, rfl, fun s => rfl⟩
  · have hOK : slidingOK (runTrace rlEmpty reqs) := by
      cases reqs with
      | nil =>
        intro k T2
        simp [runTrace, rlEmpty, countWindow]
      | cons r rest =>
        refine runTrace_slidingOK (r :: rest) rlEmpty r.1 ?_ ?_ ?_
        · intro k t ht
          simp [rlEmpty] at ht
        · intro k T2
          simp [rlEmpty, countWindow]
        · rw [List.map_cons]
          rw [List.map_cons] at hmono
          exact List.Chain.cons (le_refl r.1) hmono
    exact hOK (rlKey "check_username" idy) T
  · intro i j st now hij
    exact rlLimit_grants_other "check_username" i now st (rlKey "check_username" j)
      (rlKey_ne "check_username" j i (Ne.symm hij))

/-- C4 witness: a one-request trace stays within the 30-per-window budget. -/
theorem ratelimit_per_identity_bound_witness :
    countWindow ((runTrace rlEmpty [(0, "203.0.113.5")]).grants
      (rlKey "check_username" "203.0.113.5")) 0 ≤ 30 :=
  (ratelimit_per_identity_bound [(0, "203.0.113.5")]
    (by rw [List.map_cons, List.map_nil]; exact List.chain'_singleton 0)
    "203.0.113.5" 0).1

/-- C9: from the state in which two request handlers are dispatched while the
session is invalid, the event-loop semantics of the source's `ensureLoggedIn`
reaches a state in which both tasks are inside `login()` at once: the code has
no single-flight discipline, so concurrent callers do not share one in-flight
login attempt. -/
theorem two_concurrent_logins_reachable :
    ∃ s : TwoTasks, Relation.ReflTransGen LoginStep twoIdleInvalid s
      ∧ s.pc1 = TaskPC.inLogin ∧ s.pc2 = TaskPC.inLogin := by
  refine ⟨{ pc1 := TaskPC.inLogin, pc2 := TaskPC.inLogin, valid := false }, ?_, rfl, rfl⟩
  have h1 : LoginStep twoIdleInvalid
      { pc1 := TaskPC.inLogin, pc2 := TaskPC.notStarted, valid := false } :=
    LoginStep.enter1 twoIdleInvalid rfl rfl
  have h2 : LoginStep { pc1 := TaskPC.inLogin, pc2 := TaskPC.notStarted, valid := false }
      { pc1 := TaskPC.inLogin, pc2 := TaskPC.inLogin, valid := false } :=
    LoginStep.enter2 { pc1 := TaskPC.inLogin, pc2 := TaskPC.notStarted, valid := false } rfl rfl
  exact Relation.ReflTransGen.head h1 (Relation.ReflTransGen.head h2 Relation.ReflTransGen.refl)

/-- C10 counterexample: with the session cookie expired one second before the
clock (expiry 3599000, clock 3600000), `getStatus` reports `loggedIn=false`
and a non-null `expiresAt`, but `hoursLeft` is `0`, not negative: the raw
value `-1/3600` hours rounds to two decimals as `0`. -/
theorem status_past_expiry_not_negative :
    (getStatus 3600000 pastJar).loggedIn = false
    ∧ (getStatus 3600000 pastJar).expiresAt = some 3599000
    ∧ (getStatus 3600000 pastJar).hoursLeft = some 0
    ∧ ∀ q : ℚ, (getStatus 3600000 pastJar).hoursLeft = some q → ¬ q < 0 := by
  have hexp : getSessionExpiry pastJar = some 3599000 := by decide
  have hne : rawHoursLeft 3600000 3599000 ≠ 0 := by
    unfold rawHoursLeft
    norm_num
  have hr : round2 (rawHoursLeft 3600000 3599000) = 0 := by
    unfold round2 rawHoursLeft
    rw [round_eq]
    norm_num
  have hhl : (getStatus 3600000 pastJar).hoursLeft = some 0 := by
    unfold getStatus
    dsimp only
    rw [hexp]
    dsimp only
    rw [if_neg hne, hr]
  refine ⟨by decide, by decide, hhl, ?_⟩
  intro q hq
  rw [hhl] at hq
  have hq0 : (0 : ℚ) = q := Option.some.inj hq
  rw [← hq0]
  norm_num

/-- C10 amended: `getStatus` reports `hoursLeft=null` not only when no
session-cookie expiry exists but also whenever the raw hours-left value is
exactly 0 (expiry equal to the clock), with `expiresAt` then non-null; for a
session cookie whose expiry is in the past it reports `loggedIn=false`, a
non-null `expiresAt`, and a non-positive `hoursLeft`, which is negative
whenever the expiry lies more than 18 seconds in the past and is `0` when the
expiry is less than 18 seconds in the past (the two-decimal rounding collapses
such values). -/
theorem status_hoursLeft_rounding (now : Int) (jar : List Cookie) (t : Int)
    (hexp : getSessionExpiry jar = some t) :
    (t = now → (getStatus now jar).hoursLeft = none
      ∧ (getStatus now jar).expiresAt = some t)
    ∧ (t < now → (getStatus now jar).loggedIn = false
      ∧ (getStatus now jar).expiresAt = some t
      ∧ ∀ q : ℚ, (getStatus now jar).hoursLeft = some q → q ≤ 0)
    ∧ (t + 18000 < now → ∃ q : ℚ, (getStatus now jar).hoursLeft = some q ∧ q < 0)
    ∧ (t < now → now < t + 18000 → (getStatus now jar).hoursLeft = some 0) := by
  have hexpAt : (getStatus now jar).expiresAt = some t := by
    unfold getStatus
    dsimp only
    exact hexp
  have hiff : rawHoursLeft now t = 0 ↔ t = now := by
    unfold rawHoursLeft
    rw [div_eq_zero_iff]
    constructor
    · rintro (h | h)
      · have h2 : (t - now : ℤ) = 0 := by exact_mod_cast h
        omega
      · norm_num at h
    · intro h
      subst h
      simp
  have hred : rawHoursLeft now t ≠ 0 →
      (getStatus now jar).hoursLeft = some (round2 (rawHoursLeft now t)) := by
    intro hne
    unfold getStatus
    dsimp only
    rw [hexp]
    dsimp only
    rw [if_neg hne]
  have hrednone : rawHoursLeft now t = 0 → (getStatus now jar).hoursLeft = none := by
    intro h0
    unfold getStatus
    dsimp only
    rw [hexp]
    dsimp only
    rw [if_pos h0]
  have hx : rawHoursLeft now t * 100 = ((t - now : ℤ) : ℚ) / 36000 := by
    unfold rawHoursLeft
    ring
  have hlog : t < now → (getStatus now jar).loggedIn = false := by
    intro hlt
    unfold getStatus
    dsimp only
    unfold getSessionExpiry at hexp
    unfold isSessionValid
    cases hf : findSessionCookie jar with
    | none => simp [hf] at hexp
    | some c =>
      rw [hf] at hexp
      dsimp only at hexp
      dsimp only
      rw [hexp]
      simp only [decide_eq_false_iff_not]
      omega
  have hle0 : t < now → round (rawHoursLeft now t * 100) ≤ 0 := by
    intro hlt
    rw [round_eq, hx]
    have hneg : ((t - now : ℤ) : ℚ) / 36000 < 0 := by
      apply div_neg_of_neg_of_pos
      · exact_mod_cast (by omega : (t - now : ℤ) < 0)
      · norm_num
    have hfl : ⌊((t - now : ℤ) : ℚ) / 36000 + 1 / 2⌋ < 1 := by
      apply Int.floor_lt.mpr
      rw [Int.cast_one]
      linarith
    omega
  have hlt0 : t + 18000 < now → round (rawHoursLeft now t * 100) < 0 := by
    intro hlt
    rw [round_eq, hx]
    apply Int.floor_lt.mpr
    have hd : ((t - now : ℤ) : ℚ) < -18000 :=
      by exact_mod_cast (by omega : (t - now : ℤ) < -18000)
    have hdd : ((t - now : ℤ) : ℚ) / 36000 < -(1 / 2) := by
      rw [div_lt_iff₀ (by norm_num : (0 : ℚ) < 36000)]
      linarith
    rw [Int.cast_zero]
    linarith
  have heq0 : t < now → now < t + 18000 → round (rawHoursLeft now t * 100) = 0 := by
    intro h1 h2
    rw [round_eq, hx]
    apply Int.floor_eq_zero_iff.mpr
    rw [Set.mem_Ico]
    have hdl : (-18000 : ℚ) < ((t - now : ℤ) : ℚ) :=
      by exact_mod_cast (by omega : (-18000 : ℤ) < t - now)
    have hdu : ((t - now : ℤ) : ℚ) < 0 :=
      by exact_mod_cast (by omega : (t - now : ℤ) < 0)
    have hlow : -(1 / 2) < ((t - now : ℤ) : ℚ) / 36000 := by
      rw [lt_div_iff₀ (by norm_num : (0 : ℚ) < 36000)]
      linarith
    have hhigh : ((t - now : ℤ) : ℚ) / 36000 < 0 := by
      apply div_neg_of_neg_of_pos hdu
      norm_num
    constructor
    · linarith
    · linarith
  refine ⟨?_, ?_, ?_, ?_⟩
  · intro h
    exact ⟨hrednone (hiff.mpr h), hexpAt⟩
  · intro hlt
    have hne : rawHoursLeft now t ≠ 0 := fun h0 => by
      have := hiff.mp h0
      omega
    refine ⟨hlog hlt, hexpAt, ?_⟩
    intro q hq
    rw [hred hne] at hq
    have hq2 : round2 (rawHoursLeft now t) = q := Option.some.inj hq
    rw [← hq2]
    unfold round2
    rw [div_le_iff₀ (by norm_num : (0 : ℚ) < 100), zero_mul]
    exact_mod_cast hle0 hlt
  · intro hlt
    have hne : rawHoursLeft now t ≠ 0 := fun h0 => by
      have := hiff.mp h0
      omega
    refine ⟨round2 (rawHoursLeft now t), hred hne, ?_⟩
    unfold round2
    apply div_neg_of_neg_of_pos
    · exact_mod_cast hlt0 hlt
    · norm_num
  · intro h1 h2
    have hne : rawHoursLeft now t ≠ 0 := fun h0 => by
      have := hiff.mp h0
      omega
    rw [hred hne]
    have hr0 : round2 (rawHoursLeft now t) = 0 := by
      unfold round2
      rw [heq0 h1 h2]
      norm_num
    rw [hr0]

/-- C10 amended witness: with the cookie expiring at 3599000 and the clock one
hour later, the session reports logged out and a strictly negative rounded
hours-left value. -/
theorem status_hoursLeft_rounding_witness :
    (getStatus 7200000 pastJar).loggedIn = false
    ∧ ∃ q : ℚ, (getStatus 7200000 pastJar).hoursLeft = some q ∧ q < 0 := by
  have h := status_hoursLeft_rounding 7200000 pastJar 3599000 (by decide)
  exact ⟨(h.2.1 (by norm_num)).1, h.2.2.1 (by norm_num)⟩
